import Mathlib

/-!
Verification of the Hotel Reservation Management System (HRMS)
Reservation & Pricing Engine against its specification.

The repository ships a Next.js frontend (`frontend/app/...`), a legacy
static frontend (`static/js/app.js`), and the SQLite schema
(`src/database/schema.sql`).  The FastAPI backend service layer
(`app.py`, `src/services/reservation_service.py`,
`src/services/pricing_service.py`, ...) is referenced throughout the
repository (start scripts, test plans, `ROOM_RESERVATION_STATUS.md`)
but its source is not part of the repository snapshot; where a claim is
decided by that missing backend, the corresponding definition below is
modelled from the specification (and from the backend SQL quoted in
`ROOM_RESERVATION_STATUS.md`) and is marked `Modelled from the spec:`.

Dates are embedded as natural numbers counting days; ISO date strings
compare lexicographically, which is order-isomorphic to this encoding.
Concrete 2026 dates used by the spec scenarios are given as day offsets
from 2026-01-01 (day 0); 2026 is not a leap year, so for example
2026-03-01 is day 59.
-/

namespace HRMS

/-- Reservation lifecycle status, from `schema.sql`:
`CHECK(status IN ('Confirmed', 'CheckedIn', 'CheckedOut', 'Cancelled'))`. -/
inductive RStatus where
  | Confirmed
  | CheckedIn
  | CheckedOut
  | Cancelled
deriving DecidableEq, Repr

/-- Room housekeeping status, from `schema.sql`:
`CHECK(status IN ('Clean', 'Dirty', 'Occupied', 'Maintenance'))`. -/
inductive HkStatus where
  | Clean
  | Dirty
  | Occupied
  | Maintenance
deriving DecidableEq, Repr

/-- Payment method, from `schema.sql`:
`CHECK(payment_method IN ('Cash', 'CreditCard', 'DebitCard', 'OnlineTransfer'))`. -/
inductive PayMethod where
  | Cash
  | CreditCard
  | DebitCard
  | OnlineTransfer
deriving DecidableEq, Repr

/-- Error taxonomy of the core, from spec section 7: ValidationError,
ConflictError, StateError (carrying the current and the attempted
status), PaymentError. -/
inductive Err where
  | validation
  | conflict
  | state (current : RStatus) (attempted : RStatus)
  | payment
deriving DecidableEq, Repr

/-- A reservation row, from the `reservations` table of `schema.sql`
(the columns the core reads and writes; guest reference, special
requests and audit columns are opaque to the core). -/
structure Reservation where
  id : Nat
  roomId : Nat
  checkInDate : Nat
  checkOutDate : Nat
  numGuests : Nat
  totalPrice : ℚ
  status : RStatus
deriving DecidableEq, Repr

/-- A payment row, from the `payments` table of `schema.sql`. -/
structure Payment where
  resId : Nat
  amount : ℚ
  method : PayMethod
deriving DecidableEq, Repr

/-- A room row, from the `rooms` table of `schema.sql`. -/
structure Room where
  roomId : Nat
  roomTypeId : Nat
  hkStatus : HkStatus
deriving DecidableEq, Repr

/-- A room type row, from the `room_types` table of `schema.sql`. -/
structure RoomType where
  roomTypeId : Nat
  basePrice : ℚ
  maxOccupancy : Nat
deriving DecidableEq, Repr

/-- A seasonal pricing rule, from the `seasonal_pricing` table of
`schema.sql`: `price_multiplier DECIMAL(5,2) NOT NULL` and
`fixed_price DECIMAL(10,2)` nullable, with a date window
`[start_date, end_date]`. -/
structure SeasonalRule where
  roomTypeId : Nat
  startDate : Nat
  endDate : Nat
  multiplier : ℚ
  fixedPrice : Option ℚ
deriving DecidableEq, Repr

/-- Half-open interval overlap test: `[a1, a2)` meets `[b1, b2)` iff
`a1 < b2 AND a2 > b1` (spec section 4.1; the same filter appears in the
backend SQL quoted in `ROOM_RESERVATION_STATUS.md`, which keys
conflicts on status IN Confirmed, CheckedIn). -/
def overlaps (a1 a2 b1 b2 : Nat) : Bool :=
  decide (a1 < b2) && decide (b1 < a2)

/-- A reservation blocks availability iff its status is Confirmed or
CheckedIn (backend SQL in `ROOM_RESERVATION_STATUS.md`:
`WHERE status IN ('Confirmed', 'CheckedIn')`). -/
def blocking (r : Reservation) : Bool :=
  r.status = RStatus.Confirmed ∨ r.status = RStatus.CheckedIn

/-- Modelled from the spec: `AvailabilityChecker.isAvailable` of the
missing backend (`src/services/reservation_service.py`).  Rejects with
ValidationError when `check_out <= check_in`; otherwise true iff no
reservation for the room with status in Confirmed, CheckedIn has an
overlapping half-open interval. -/
def isAvailable (resvs : List Reservation) (roomId ci co : Nat) :
    Except Err Bool :=
  if co ≤ ci then Except.error Err.validation
  else Except.ok (resvs.all fun r =>
    !(decide (r.roomId = roomId) && blocking r &&
      overlaps ci co r.checkInDate r.checkOutDate))

/-- Does a seasonal rule apply to one night `d` for a room type?  The
rule window is inclusive at its start and exclusive at its end: this is
the only reading consistent with the spec scenario (multiplier 1.5 on
2026-03-02 to 2026-03-03 prices the night of 2026-03-02 at 300 but the
night of 2026-03-03 at the base 200, total 700) and with
`CHECK (end_date > start_date)` in `schema.sql`, which would make a
one-night season unrepresentable under an inclusive end. -/
def ruleMatches (rule : SeasonalRule) (rtId d : Nat) : Bool :=
  decide (rule.roomTypeId = rtId) && decide (rule.startDate ≤ d) &&
    decide (d < rule.endDate)

/-- The night-match test as worded by the claim (window inclusive at
both ends), kept separate to compare against `ruleMatches`. -/
def ruleMatchesIncl (rule : SeasonalRule) (rtId d : Nat) : Bool :=
  decide (rule.roomTypeId = rtId) && decide (rule.startDate ≤ d) &&
    decide (d ≤ rule.endDate)

/-- Modelled from the spec: per-night rate resolution of the missing
backend `pricing_service.py`.  If no rule matches the night the rate is
the base price; otherwise a fixed price replaces the nightly rate
outright and a multiplier scales the base rate (spec section 4.2).
Among several matching rules the first stored rule wins (the spec
leaves the tie-break open; the scenarios proved below involve at most
one rule per night). -/
def nightRate (rules : List SeasonalRule) (rtId : Nat) (base : ℚ)
    (d : Nat) : ℚ :=
  match rules.find? (fun rule => ruleMatches rule rtId d) with
  | some rule =>
      match rule.fixedPrice with
      | some f => f
      | none => base * rule.multiplier
  | none => base

/-- Modelled from the spec: `PricingEngine.computePrice` of the missing
backend `pricing_service.py`.  The stay is partitioned into unit
nights `[d, d+1)` for `d` from `check_in` to `check_out - 1` and the
resolved nightly rates are summed; rejects with ValidationError when
`check_out <= check_in` (spec section 4.2). -/
def computePrice (rules : List SeasonalRule) (rtId : Nat) (base : ℚ)
    (ci co : Nat) : Except Err ℚ :=
  if co ≤ ci then Except.error Err.validation
  else Except.ok
    (((List.range (co - ci)).map fun k =>
        nightRate rules rtId base (ci + k)).sum)

/-- The per-night rate under the claim's inclusive-window reading,
using `ruleMatchesIncl` in place of `ruleMatches`. -/
def nightRateIncl (rules : List SeasonalRule) (rtId : Nat) (base : ℚ)
    (d : Nat) : ℚ :=
  match rules.find? (fun rule => ruleMatchesIncl rule rtId d) with
  | some rule =>
      match rule.fixedPrice with
      | some f => f
      | none => base * rule.multiplier
  | none => base

/-- The stay total under the claim's inclusive-window reading. -/
def computePriceIncl (rules : List SeasonalRule) (rtId : Nat) (base : ℚ)
    (ci co : Nat) : Except Err ℚ :=
  if co ≤ ci then Except.error Err.validation
  else Except.ok
    (((List.range (co - ci)).map fun k =>
        nightRateIncl rules rtId base (ci + k)).sum)

/-- Day offset of 2026-03-01 from 2026-01-01 (31 + 28). -/
def dMar01 : Nat := 59

/-- Day offset of 2026-03-02. -/
def dMar02 : Nat := 60

/-- Day offset of 2026-03-03. -/
def dMar03 : Nat := 61

/-- Day offset of 2026-03-04. -/
def dMar04 : Nat := 62

/-- Day offset of 2026-03-05. -/
def dMar05 : Nat := 63

/-- Day offset of 2026-03-06. -/
def dMar06 : Nat := 64

/-- Day offset of 2026-03-09. -/
def dMar09 : Nat := 67

/-- Day offset of 2026-03-10. -/
def dMar10 : Nat := 68

/-- The seasonal rule of spec scenario 2: multiplier 1.5 on the
inclusive window 2026-03-02 to 2026-03-03 for room type 101. -/
def rule15 : SeasonalRule :=
  { roomTypeId := 101, startDate := dMar02, endDate := dMar03,
    multiplier := 3 / 2, fixedPrice := none }

/-!
IEEE-754 binary64 model.  The frontend does its money arithmetic on
JavaScript `Number` values, which are binary64 floats
(`CheckOutForm.tsx`, `calculateChange`).  A finite binary64 value is a
dyadic rational `m * 2^e`; the functions below compute correctly
rounded (round-to-nearest, ties-to-even) results with exact natural
number arithmetic.  The model covers the normal finite range (inputs
below 2^64, as all money amounts here are); overflow and subnormals
are outside the modelled range.
-/

/-- Fuel-bounded base-2 logarithm: `log2fuel fuel n` is the index of
the highest set bit of `n` for `n < 2 ^ fuel` (and `0` for `n ≤ 1`). -/
def log2fuel : Nat → Nat → Nat
  | 0, _ => 0
  | fuel + 1, n => if n ≤ 1 then 0 else log2fuel fuel (n / 2) + 1

/-- Base-2 logarithm used by the float model (64 bits of fuel covers
every quantity appearing in this development). -/
def nlog2 (n : Nat) : Nat := log2fuel 64 n

/-- Round `num / den` to the nearest integer, ties to even. -/
def roundHE (num den : Nat) : Nat :=
  let q := num / den
  let r := num % den
  if 2 * r < den then q
  else if den < 2 * r then q + 1
  else if q % 2 = 0 then q else q + 1

/-- A finite binary64 value `m * 2^e` (signed integral mantissa and
binary exponent). -/
structure F64 where
  m : ℤ
  e : ℤ
deriving DecidableEq, Repr

/-- The exact rational value of a binary64 model value. -/
def F64.val (x : F64) : ℚ := (x.m : ℚ) * (2 : ℚ) ^ x.e

/-- Round a nonnegative dyadic `M * 2^k` to 53 significant bits,
ties to even (identity when `M` already fits in 53 bits). -/
def roundDyadic (M : Nat) (k : ℤ) : F64 :=
  let a := nlog2 M
  if a ≤ 52 then ⟨(M : ℤ), k⟩
  else ⟨(roundHE M (2 ^ (a - 52)) : ℤ), k + (a - 52)⟩

/-- Nearest binary64 to the decimal `n / 10^t` (the JavaScript
semantics of `Number("...")` on a decimal literal), for `n < 2^64`.
The exponent `e` is chosen with `2^e ≤ n/10^t < 2^(e+1)` and the
53-bit mantissa is rounded half-to-even, as IEEE 754 prescribes. -/
def decToF64 (n t : Nat) : F64 :=
  if n = 0 then ⟨0, 0⟩
  else
    let d := 10 ^ t
    let a := nlog2 n
    let b := nlog2 d
    let e : ℤ := if d * 2 ^ a ≤ n * 2 ^ b then (a : ℤ) - b else ((a : ℤ) - b) - 1
    let s : ℤ := 52 - e
    let m : Nat :=
      if 0 ≤ s then roundHE (n * 2 ^ s.toNat) d
      else roundHE n (d * 2 ^ (-s).toNat)
    ⟨(m : ℤ), e - 52⟩

/-- Binary64 subtraction: the exact difference of two dyadic values is
dyadic, and is rounded to 53 significant bits (round-to-nearest,
ties-to-even; rounding commutes with negation). -/
def subF64 (a b : F64) : F64 :=
  let k := min a.e b.e
  let M : ℤ := a.m * 2 ^ (a.e - k).toNat - b.m * 2 ^ (b.e - k).toNat
  if 0 ≤ M then roundDyadic M.toNat k
  else
    let f := roundDyadic (-M).toNat k
    ⟨-f.m, f.e⟩

/-- From `frontend/app/components/CheckOutForm.tsx`, `calculateChange`:
`const change = Number(paymentAmount) - reservation.total_price;
return change > 0 ? change : 0;` — a binary64 subtraction followed by
clamping at zero.  `total` and `payment` are the binary64 values held
by the page (the stored total price and the parsed payment input). -/
def calculateChange (total payment : F64) : F64 :=
  let change := subF64 payment total
  if 0 < change.m then change else ⟨0, 0⟩

/-- From `frontend/app/components/ReservationForm.tsx`,
`calculatePrice`: on API success the displayed price is the API value;
on API failure the catch branch silently displays
`selectedRoom.base_price * nights`, where `nights` is
`Math.ceil((Date(checkOut) - Date(checkIn)) / 86400000)` — exactly
`checkOut - checkIn` in the day encoding, since ISO date inputs parse
to UTC midnights. -/
def displayedPriceForm (apiResult : Option ℚ) (basePrice : ℚ)
    (ci co : Nat) : ℚ :=
  match apiResult with
  | some p => p
  | none => basePrice * ((co - ci : Nat) : ℚ)

/-- From `static/js/app.js`, `displayAvailableRooms`: the displayed
`calculated_price` is the API price when the pricing call succeeds and
plain `room.base_price` (one night, regardless of stay length) when it
fails or reports non-success. -/
def displayedPriceLegacy (apiResult : Option ℚ) (basePrice : ℚ) : ℚ :=
  match apiResult with
  | some p => p
  | none => basePrice

/-- The pricing columns of a candidate `seasonal_pricing` row, as
constrained by `schema.sql` (nullable columns as `Option`). -/
structure SeasonalRowInput where
  startDate : Nat
  endDate : Nat
  multiplier : Option ℚ
  fixedPrice : Option ℚ

/-- From `schema.sql`, table `seasonal_pricing`: a row is storable iff
`price_multiplier` is present (`DECIMAL(5,2) NOT NULL`) and
`CHECK (end_date > start_date)` holds; `fixed_price DECIMAL(10,2)` is
nullable and unconstrained. -/
def seasonalRowOk (row : SeasonalRowInput) : Bool :=
  row.multiplier.isSome && decide (row.startDate < row.endDate)

/-- A storable `seasonal_pricing` row carrying both a multiplier and a
fixed price. -/
def bothRow : SeasonalRowInput :=
  { startDate := 0, endDate := 1, multiplier := some (3 / 2),
    fixedPrice := some 250 }

/-- The `pricing_type` radio choice of the seasonal-pricing form in
`frontend/app/components/Reports.tsx`. -/
inductive PricingKind where
  | multiplier
  | fixed
deriving DecidableEq, Repr

/-- The pricing fields of the request body built by `handleSavePricing`
in `frontend/app/components/Reports.tsx`. -/
structure PricingPayload where
  priceMultiplier : Option ℚ
  fixedPrice : Option ℚ
deriving DecidableEq

/-- From `frontend/app/components/Reports.tsx`, `handleSavePricing`:
`price_multiplier` is sent when `pricing_type === "multiplier"` and
`undefined` otherwise, `fixed_price` is sent when
`pricing_type === "fixed"` and `undefined` otherwise. -/
def savePricingPayload (kind : PricingKind) (mval fval : ℚ) :
    PricingPayload :=
  match kind with
  | .multiplier => ⟨some mval, none⟩
  | .fixed => ⟨none, some fval⟩


/-!
Reservation state machine.  Modelled from the spec: the backend that
owns reservation state (`app.py` and
`src/services/reservation_service.py`) is not part of the repository
snapshot; the operations below follow the transition table of spec
section 4.3, the reconciler of section 4.4 and the atomicity
requirements of section 5 (each operation is one atomic step, so
concurrent requests serialize; a losing concurrent create re-runs the
availability check and receives ConflictError).
-/

/-- Read-only configuration consumed by the core: room types and
seasonal pricing rules (spec section 6: read-only inputs). -/
structure Config where
  roomTypes : List RoomType
  rules : List SeasonalRule

/-- The shared mutable store: rooms (housekeeping status is written as
a side effect of check-in and check-out), reservations, payments, and
the autoincrement counter of the `reservations` table. -/
structure HState where
  rooms : List Room
  reservations : List Reservation
  payments : List Payment
  nextId : Nat

/-- The store before any reservation activity: the configured rooms,
no reservations and no payments. -/
def initState (rooms : List Room) : HState :=
  { rooms := rooms, reservations := [], payments := [], nextId := 0 }

/-- Look a reservation up by id. -/
def findRes (s : HState) (rid : Nat) : Option Reservation :=
  s.reservations.find? fun r => r.id = rid

/-- Status update applied to the reservation with the given id. -/
def updStatus (rid : Nat) (st : RStatus) (r : Reservation) :
    Reservation :=
  if r.id = rid then { r with status := st } else r

/-- Set the lifecycle status of one reservation in the store. -/
def setResStatus (s : HState) (rid : Nat) (st : RStatus) : HState :=
  { s with reservations := s.reservations.map (updStatus rid st) }

/-- Housekeeping update applied to the room with the given id. -/
def updHk (roomId : Nat) (st : HkStatus) (rm : Room) : Room :=
  if rm.roomId = roomId then { rm with hkStatus := st } else rm

/-- Set the housekeeping status of one room in the store
(spec section 4.3 side-effect column). -/
def setRoomHk (s : HState) (roomId : Nat) (st : HkStatus) : HState :=
  { s with rooms := s.rooms.map (updHk roomId st) }

/-- The housekeeping status of a room, when the room exists. -/
def roomHk (s : HState) (roomId : Nat) : Option HkStatus :=
  (s.rooms.find? fun rm => rm.roomId = roomId).map Room.hkStatus

/-- Modelled from the spec: the create transition (spec section 4.3,
row `create`): validates the room, the occupancy bound and the dates,
re-checks availability atomically (ConflictError on failure), computes
and freezes the total price, and inserts a Confirmed reservation under
a fresh id. -/
def createReservation (cfg : Config) (s : HState)
    (roomId ci co n : Nat) : Except Err (HState × Nat) :=
  match s.rooms.find? fun rm => rm.roomId = roomId with
  | none => Except.error Err.validation
  | some rm =>
    match cfg.roomTypes.find? fun rt => rt.roomTypeId = rm.roomTypeId with
    | none => Except.error Err.validation
    | some rt =>
      if rt.maxOccupancy < n then Except.error Err.validation
      else
        match isAvailable s.reservations roomId ci co with
        | Except.error e => Except.error e
        | Except.ok false => Except.error Err.conflict
        | Except.ok true =>
          match computePrice cfg.rules rm.roomTypeId rt.basePrice ci co with
          | Except.error e => Except.error e
          | Except.ok price =>
            Except.ok
              ({ s with
                 reservations :=
                   { id := s.nextId, roomId := roomId, checkInDate := ci,
                     checkOutDate := co, numGuests := n,
                     totalPrice := price, status := RStatus.Confirmed } ::
                     s.reservations,
                 nextId := s.nextId + 1 }, s.nextId)

/-- Modelled from the spec: the check-in transition (spec section 4.3,
row `check-in`): requires status Confirmed (else StateError naming the
current and the attempted status) and `today >= check_in_date` (no
early check-in; the spec does not name the error kind of this guard,
so the rejection is modelled as ValidationError); on success the
reservation becomes CheckedIn and the room housekeeping status is set
to Occupied. -/
def checkInOp (s : HState) (rid today : Nat) : Except Err HState :=
  match findRes s rid with
  | none => Except.error Err.validation
  | some r =>
    if r.status ≠ RStatus.Confirmed then
      Except.error (Err.state r.status RStatus.CheckedIn)
    else if today < r.checkInDate then Except.error Err.validation
    else
      Except.ok
        (setRoomHk (setResStatus s rid RStatus.CheckedIn) r.roomId
          HkStatus.Occupied)

/-- Modelled from the spec: checkout reconciliation plus the check-out
transition (spec sections 4.3 and 4.4): requires status CheckedIn
(else StateError), requires `payment_amount >= total_price` (else
PaymentError), and atomically creates the Payment record, moves the
reservation to CheckedOut and sets the room housekeeping status to
Dirty. -/
def checkOutOp (s : HState) (rid : Nat) (method : PayMethod)
    (amount : ℚ) : Except Err HState :=
  match findRes s rid with
  | none => Except.error Err.validation
  | some r =>
    if r.status ≠ RStatus.CheckedIn then
      Except.error (Err.state r.status RStatus.CheckedOut)
    else if amount < r.totalPrice then Except.error Err.payment
    else
      Except.ok
        (setRoomHk
          (setResStatus
            { s with payments :=
                { resId := rid, amount := amount, method := method } ::
                  s.payments }
            rid RStatus.CheckedOut)
          r.roomId HkStatus.Dirty)

/-- Modelled from the spec: the cancel transition (spec section 4.3,
row `cancel`): requires status Confirmed (else StateError); the
reservation becomes Cancelled and no side effect is applied. -/
def cancelOp (s : HState) (rid : Nat) : Except Err HState :=
  match findRes s rid with
  | none => Except.error Err.validation
  | some r =>
    if r.status ≠ RStatus.Confirmed then
      Except.error (Err.state r.status RStatus.Cancelled)
    else Except.ok (setResStatus s rid RStatus.Cancelled)

/-- Run a create request against the store: a failed request leaves the
store unchanged (spec section 7: no partial state mutation on
failure). -/
def execCreate (cfg : Config) (s : HState) (roomId ci co n : Nat) :
    HState :=
  match createReservation cfg s roomId ci co n with
  | Except.ok (s2, _) => s2
  | Except.error _ => s

/-- Run a check-in request against the store; failures leave the store
unchanged. -/
def execCheckIn (s : HState) (rid today : Nat) : HState :=
  match checkInOp s rid today with
  | Except.ok s2 => s2
  | Except.error _ => s

/-- Run a check-out request against the store; failures leave the store
unchanged. -/
def execCheckOut (s : HState) (rid : Nat) (method : PayMethod)
    (amount : ℚ) : HState :=
  match checkOutOp s rid method amount with
  | Except.ok s2 => s2
  | Except.error _ => s

/-- Run a cancel request against the store; failures leave the store
unchanged. -/
def execCancel (s : HState) (rid : Nat) : HState :=
  match cancelOp s rid with
  | Except.ok s2 => s2
  | Except.error _ => s

/-- The stores reachable from an initial store under any finite
sequence of successful core operations (failed operations do not change
the store, so they do not enlarge this set). -/
inductive Reachable (cfg : Config) (rooms : List Room) : HState → Prop
  | init : Reachable cfg rooms (initState rooms)
  | create {s s2 rid roomId ci co n} : Reachable cfg rooms s →
      createReservation cfg s roomId ci co n = Except.ok (s2, rid) →
      Reachable cfg rooms s2
  | checkin {s s2 rid today} : Reachable cfg rooms s →
      checkInOp s rid today = Except.ok s2 → Reachable cfg rooms s2
  | checkout {s s2 rid method amount} : Reachable cfg rooms s →
      checkOutOp s rid method amount = Except.ok s2 →
      Reachable cfg rooms s2
  | cancel {s s2 rid} : Reachable cfg rooms s →
      cancelOp s rid = Except.ok s2 → Reachable cfg rooms s2

/-- Two reservations do not double-book: if both block availability
and share a room, their half-open stay intervals do not overlap. -/
def noConflict (r1 r2 : Reservation) : Prop :=
  blocking r1 = true → blocking r2 = true → r1.roomId = r2.roomId →
    overlaps r1.checkInDate r1.checkOutDate r2.checkInDate
      r2.checkOutDate = false

/-- The inductive invariant of the store: reservation ids are below
the autoincrement counter and pairwise distinct, payments reference
ids below the counter, no two blocking reservations double-book a
room, and every reservation referenced by a payment is CheckedOut. -/
structure Inv (s : HState) : Prop where
  idsBelow : ∀ r ∈ s.reservations, r.id < s.nextId
  payBelow : ∀ p ∈ s.payments, p.resId < s.nextId
  uniq : s.reservations.Pairwise fun a b => a.id ≠ b.id
  noDouble : s.reservations.Pairwise noConflict
  payOut : ∀ p ∈ s.payments, ∀ r ∈ s.reservations,
    r.id = p.resId → r.status = RStatus.CheckedOut

/-- The configuration of the concrete spec scenarios: room type 101
with base price 200 and maximum occupancy 2, no seasonal rules. -/
def cfg0 : Config :=
  { roomTypes := [{ roomTypeId := 101, basePrice := 200,
                    maxOccupancy := 2 }],
    rules := [] }

/-- One configured room: room 1 of type 101, initially Clean. -/
def rooms0 : List Room :=
  [{ roomId := 1, roomTypeId := 101, hkStatus := HkStatus.Clean }]


/-- A Confirmed reservation on room 1 over 2026-03-01 to 2026-03-05
(spec scenario 3). -/
def resMar01to05 : Reservation :=
  { id := 0, roomId := 1, checkInDate := dMar01, checkOutDate := dMar05,
    numGuests := 2, totalPrice := 800, status := RStatus.Confirmed }

/-- The same reservation, Cancelled. -/
def resMar01to05c : Reservation :=
  { resMar01to05 with status := RStatus.Cancelled }

/-- The back-to-back reservation of spec scenario 3: room 1 over
2026-03-05 to 2026-03-06 (does not conflict with `resMar01to05`). -/
def resMar05to06 : Reservation :=
  { id := 1, roomId := 1, checkInDate := dMar05, checkOutDate := dMar06,
    numGuests := 2, totalPrice := 200, status := RStatus.Confirmed }

/-- The store after the scenario-3 booking of room 1 over 2026-03-01
to 2026-03-05. -/
def stOne : HState :=
  { rooms := rooms0, reservations := [resMar01to05], payments := [],
    nextId := 1 }

/-- The store after the additional back-to-back booking over
2026-03-05 to 2026-03-06. -/
def stTwo : HState :=
  { rooms := rooms0, reservations := [resMar05to06, resMar01to05],
    payments := [], nextId := 2 }

/-- The store after checking reservation 0 in: the room is Occupied
and the reservation CheckedIn. -/
def stThree : HState :=
  { rooms := [{ roomId := 1, roomTypeId := 101,
                hkStatus := HkStatus.Occupied }],
    reservations := [resMar05to06,
      { resMar01to05 with status := RStatus.CheckedIn }],
    payments := [], nextId := 2 }

/-- The store after checking reservation 0 out against a cash payment
of 800: the room is Dirty, the reservation CheckedOut and the payment
recorded. -/
def stFour : HState :=
  { rooms := [{ roomId := 1, roomTypeId := 101,
                hkStatus := HkStatus.Dirty }],
    reservations := [resMar05to06,
      { resMar01to05 with status := RStatus.CheckedOut }],
    payments := [{ resId := 0, amount := 800,
                   method := PayMethod.Cash }],
    nextId := 2 }

/-- The scenario-4 reservation: Confirmed on room 1 with check-in
2026-03-10 (day 68) and check-out 2026-03-12 (day 70). -/
def resC7 : Reservation :=
  { id := 0, roomId := 1, checkInDate := dMar10, checkOutDate := 70,
    numGuests := 2, totalPrice := 400, status := RStatus.Confirmed }

/-- The store holding only the scenario-4 reservation. -/
def stC7 : HState :=
  { rooms := rooms0, reservations := [resC7], payments := [],
    nextId := 1 }

/-!
Helper lemmas.
-/

/-- The half-open overlap test is symmetric. -/
theorem overlaps_symm (a1 a2 b1 b2 : Nat) :
    overlaps a1 a2 b1 b2 = overlaps b1 b2 a1 a2 := by
  simp [overlaps, Bool.and_comm]

/-- `noConflict` is symmetric. -/
theorem noConflict_symm : Symmetric noConflict := by
  intro r1 r2 h hb2 hb1 hroom
  rw [overlaps_symm]
  exact h hb1 hb2 hroom.symm

/-- A night with no applicable seasonal rule resolves to the base
price. -/
theorem nightRate_base (rules : List SeasonalRule) (rtId : Nat)
    (base : ℚ) (d : Nat)
    (h : ∀ rule ∈ rules, ruleMatches rule rtId d = false) :
    nightRate rules rtId base d = base := by
  unfold nightRate
  rw [List.find?_eq_none.mpr]
  intro rule hr
  simp [h rule hr]

/-- A stay whose nights all resolve to the base price costs the base
price times the number of nights. -/
theorem computePrice_flat (rules : List SeasonalRule) (rtId : Nat)
    (base : ℚ) (ci co : Nat) (hlt : ci < co)
    (h : ∀ rule ∈ rules, ∀ d, ci ≤ d → d < co →
      ruleMatches rule rtId d = false) :
    computePrice rules rtId base ci co =
      Except.ok (base * ((co - ci : Nat) : ℚ)) := by
  unfold computePrice
  rw [if_neg (by omega)]
  congr 1
  rw [List.map_congr_left (g := fun _ => base)]
  · rw [List.map_const', List.sum_replicate, List.length_range,
      nsmul_eq_mul, mul_comm]
  · intro k hk
    rw [List.mem_range] at hk
    exact nightRate_base rules rtId base (ci + k)
      fun rule hr => h rule hr (ci + k) (by omega) (by omega)

/-- When a reservation is Cancelled or CheckedOut it does not block. -/
theorem blocking_false_of_terminal (r : Reservation)
    (h : r.status = RStatus.Cancelled ∨ r.status = RStatus.CheckedOut) :
    blocking r = false := by
  rcases h with h | h <;> simp [blocking, h]

/-!
Claim theorems.
-/

/-- Claim C2: `isAvailable(room_id, check_in, check_out)` returns true
iff no reservation for the room with status in Confirmed, CheckedIn
has an interval overlapping `[check_in, check_out)` in the half-open
sense `a1 < b2 AND a2 > b1`; a Cancelled or CheckedOut reservation
never blocks availability, excluded by status alone (removing it from
the store never changes the answer, whatever its dates); and the call
rejects with ValidationError when `check_out <= check_in`. -/
theorem isAvailable_spec :
    (∀ (resvs : List Reservation) (roomId ci co : Nat), ci < co →
      ((isAvailable resvs roomId ci co = Except.ok true) ↔
        ∀ r ∈ resvs, r.roomId = roomId → blocking r = true →
          ¬(ci < r.checkOutDate ∧ r.checkInDate < co)))
    ∧ (∀ (resvs : List Reservation) (roomId ci co : Nat)
        (r : Reservation),
        (r.status = RStatus.Cancelled ∨ r.status = RStatus.CheckedOut) →
        isAvailable (r :: resvs) roomId ci co =
          isAvailable resvs roomId ci co)
    ∧ (∀ (resvs : List Reservation) (roomId ci co : Nat), co ≤ ci →
        isAvailable resvs roomId ci co = Except.error Err.validation) := by
  refine ⟨?_, ?_, ?_⟩
  · intro resvs roomId ci co hlt
    unfold isAvailable
    rw [if_neg (by omega)]
    simp only [Except.ok.injEq, List.all_eq_true, overlaps]
    constructor
    · intro h r hr hroom hb hov
      have := h r hr
      simp [hroom, hb, hov.1, hov.2] at this
    · intro h r hr
      by_cases hroom : r.roomId = roomId
      · by_cases hb : blocking r = true
        · have := h r hr hroom hb
          simp only [not_and, not_lt] at this
          by_cases h1 : ci < r.checkOutDate
          · simp [hroom, hb, h1, this h1]
          · simp [hroom, hb, h1]
        · simp [Bool.eq_false_iff.mpr hb]
      · simp [hroom]
  · intro resvs roomId ci co r hterm
    unfold isAvailable
    by_cases hco : co ≤ ci
    · rw [if_pos hco, if_pos hco]
    · rw [if_neg hco, if_neg hco]
      simp [blocking_false_of_terminal r hterm]
  · intro resvs roomId ci co hco
    unfold isAvailable
    rw [if_pos hco]

/-- Claim C2 witness: a concrete store with one Confirmed reservation
on room 1 over 2026-03-01 to 2026-03-05; the characterization, the
status-only exclusion for a Cancelled reservation and the date
validation are each instantiated concretely. -/
theorem isAvailable_spec_witness :
    ((isAvailable [resMar01to05] 1 dMar05 dMar06 = Except.ok true) ↔
      ∀ r ∈ [resMar01to05], r.roomId = 1 → blocking r = true →
        ¬(dMar05 < r.checkOutDate ∧ r.checkInDate < dMar06)) ∧
    (isAvailable [resMar01to05c] 1 dMar04 dMar06 =
      isAvailable [] 1 dMar04 dMar06) ∧
    isAvailable [] 1 dMar06 dMar06 = Except.error Err.validation := by
  refine ⟨isAvailable_spec.1 _ _ _ _ (by norm_num [dMar05, dMar06]),
    isAvailable_spec.2.1 _ _ _ _ _ (Or.inl rfl),
    isAvailable_spec.2.2 _ _ _ _ (le_refl _)⟩

/-- Claim C3: `computePrice` totals the per-night resolved rates over
the unit nights `[d, d+1)` for `d` from `check_in` to `check_out - 1`;
whenever no seasonal rule matches any night of the stay, the total is
`base_price` times the number of nights, and in particular the stay
2026-03-01 to 2026-03-04 at base 200 with no seasonal rules costs
600. -/
theorem computePrice_flat_rate :
    (∀ (rules : List SeasonalRule) (rtId : Nat) (base : ℚ)
      (ci co : Nat), ci < co →
      (∀ rule ∈ rules, ∀ d, ci ≤ d → d < co →
        ruleMatches rule rtId d = false) →
      computePrice rules rtId base ci co =
        Except.ok (base * ((co - ci : Nat) : ℚ))) ∧
    computePrice [] 101 200 dMar01 dMar04 = Except.ok 600 := by
  constructor
  · exact computePrice_flat
  · rw [computePrice_flat [] 101 200 dMar01 dMar04
      (by norm_num [dMar01, dMar04]) (by simp)]
    norm_num [dMar01, dMar04]

/-- Claim C3 witness: the flat-rate law instantiated at a store that
does hold a seasonal rule, for a stay (2026-03-04 to 2026-03-06) none
of whose nights the rule matches: the total is 200 x 2 = 400. -/
theorem computePrice_flat_rate_witness :
    computePrice [rule15] 101 200 dMar04 dMar06 = Except.ok 400 := by
  rw [computePrice_flat_rate.1 [rule15] 101 200 dMar04 dMar06
    (by norm_num [dMar04, dMar06])
    (by
      intro rule hr d h1 h2
      simp only [List.mem_singleton] at hr
      subst hr
      simp only [ruleMatches, rule15, dMar02, dMar03, dMar04, dMar06,
        Bool.and_eq_false_iff, decide_eq_false_iff_not] at h1 h2 ⊢
      omega)]
  norm_num [dMar04, dMar06]

/-- Nightly rates of the scenario stay under the exclusive-end window
model. -/
theorem rule15_nights :
    nightRate [rule15] 101 200 dMar01 = 200 ∧
    nightRate [rule15] 101 200 dMar02 = 300 ∧
    nightRate [rule15] 101 200 dMar03 = 200 := by
  refine ⟨?_, ?_, ?_⟩ <;>
    · simp only [nightRate, ruleMatches, rule15, dMar01, dMar02, dMar03,
        List.find?]
      norm_num

/-- The scenario stay 2026-03-01 to 2026-03-04 with the 1.5 multiplier
rule totals 700 under the exclusive-end window model. -/
theorem rule15_stay_700 :
    computePrice [rule15] 101 200 dMar01 dMar04 = Except.ok 700 := by
  simp only [computePrice, nightRate, ruleMatches, rule15, dMar01,
    dMar02, dMar03, dMar04, List.range_succ, List.range_zero,
    List.find?, List.map_append, List.map_cons, List.map_nil,
    List.sum_append, List.sum_cons, List.sum_nil]
  norm_num

/-- Claim C4 counterexample: the claim's own reading of the rule
window as inclusive at both ends contradicts its claimed prices: under
the inclusive-window pricing the rule also matches the night of
2026-03-03, which resolves to 300 rather than the claimed 200, and the
stay 2026-03-01 to 2026-03-04 totals 800 rather than the claimed
700. -/
theorem computePriceIncl_seasonal_800 :
    computePriceIncl [rule15] 101 200 dMar01 dMar04 = Except.ok 800 ∧
    (Except.ok 800 : Except Err ℚ) ≠ Except.ok 700 ∧
    nightRateIncl [rule15] 101 200 dMar03 = 300 ∧
    (300 : ℚ) ≠ 200 := by
  refine ⟨?_, by norm_num, ?_, by norm_num⟩ <;>
    · simp only [computePriceIncl, nightRateIncl, ruleMatchesIncl,
        rule15, dMar01, dMar02, dMar03, dMar04, List.range_succ,
        List.range_zero, List.find?, List.map_append, List.map_cons,
        List.map_nil, List.sum_append, List.sum_cons, List.sum_nil]
      norm_num

/-- Claim C4 as amended: with the single seasonal rule of multiplier
1.5 on the window from 2026-03-02 inclusive to 2026-03-03 exclusive
(the reading forced by the claimed total and by the schema constraint
`end_date > start_date`) for room type 101 at base 200, the stay
2026-03-01 to 2026-03-04 costs exactly 700, the night of 2026-03-01
resolving to 200, the night of 2026-03-02 to 300 and the night of
2026-03-03 to 200. -/
theorem computePrice_seasonal_scenario :
    computePrice [rule15] 101 200 dMar01 dMar04 = Except.ok 700 ∧
    nightRate [rule15] 101 200 dMar01 = 200 ∧
    nightRate [rule15] 101 200 dMar02 = 300 ∧
    nightRate [rule15] 101 200 dMar03 = 200 :=
  ⟨rule15_stay_700, rule15_nights.1, rule15_nights.2.1, rule15_nights.2.2⟩

/-- Claim C6 counterexample: the checkout page computes money with
binary64 (JavaScript `Number`) arithmetic, not fixed-point decimal.
For the total 333.33 (stored as the nearest binary64 to 333.33) and a
tendered payment of 400, the value `calculateChange` computes differs
from the exact decimal difference 400 - 333.33 = 66.67; indeed already
the stored total itself differs from 333.33. -/
theorem calculateChange_drift :
    F64.val (decToF64 33333 2) ≠ 33333 / 100 ∧
    F64.val (calculateChange (decToF64 33333 2) (decToF64 400 0)) ≠
      (400 : ℚ) - 33333 / 100 := by
  constructor
  · rw [show decToF64 33333 2 = ⟨5864003374185185, -44⟩ from by decide]
    norm_num [F64.val]
  · rw [show calculateChange (decToF64 33333 2) (decToF64 400 0) =
      ⟨1172871043581215, -44⟩ from by decide]
    norm_num [F64.val]

/-- Claim C6 as amended: `calculateChange` clamps at zero and computes
the change as a binary64 subtraction of binary64 operands — not in
fixed-point decimal.  Whenever the stored total does not exceed the
payment and the binary64 subtraction of the two stored values is exact
(as it is for every pair of values whose difference fits in 53 bits at
their scale, e.g. the 500.00 - 450.00 checkout of spec scenario 5),
the computed change equals the difference of the two stored binary64
values exactly; for totals with fractional minor units such as 333.33
the stored values themselves already differ from the decimal amounts,
so the computed change differs from the exact decimal change. -/
theorem calculateChange_exact (t p : F64)
    (hsub : (subF64 p t).val = p.val - t.val) (hle : t.val ≤ p.val) :
    (calculateChange t p).val = p.val - t.val := by
  unfold calculateChange
  by_cases hm : 0 < (subF64 p t).m
  · simpa only [if_pos hm] using hsub
  · have hval : (subF64 p t).val ≤ 0 := by
      have h2 : (0 : ℚ) < 2 ^ (subF64 p t).e := by positivity
      have hm2 : ((subF64 p t).m : ℚ) ≤ 0 := by
        exact_mod_cast Int.cast_nonpos.mpr (le_of_not_lt hm)
      exact mul_nonpos_of_nonpos_of_nonneg hm2 (le_of_lt h2)
    have hzero : p.val - t.val = 0 :=
      le_antisymm (hsub ▸ hval) (by linarith)
    rw [if_neg hm, hzero]
    norm_num [F64.val]

/-- Claim C6 witness: spec scenario 5 — a stored total of 450.00 and a
payment of 500.00; the binary64 subtraction is exact and the change is
exactly 50.00. -/
theorem calculateChange_exact_witness :
    (subF64 (decToF64 500 0) (decToF64 45000 2)).val =
      (decToF64 500 0).val - (decToF64 45000 2).val ∧
    (decToF64 45000 2).val ≤ (decToF64 500 0).val ∧
    (calculateChange (decToF64 45000 2) (decToF64 500 0)).val =
      (decToF64 500 0).val - (decToF64 45000 2).val ∧
    (calculateChange (decToF64 45000 2) (decToF64 500 0)).val = 50 := by
  have e1 : decToF64 500 0 = ⟨8796093022208000, -44⟩ := by decide
  have e2 : decToF64 45000 2 = ⟨7916483719987200, -44⟩ := by decide
  have e3 : subF64 ⟨8796093022208000, -44⟩ ⟨7916483719987200, -44⟩ =
      ⟨879609302220800, -44⟩ := by decide
  have h1 : (subF64 (decToF64 500 0) (decToF64 45000 2)).val =
      (decToF64 500 0).val - (decToF64 45000 2).val := by
    rw [e1, e2, e3]; norm_num [F64.val]
  have h2 : (decToF64 45000 2).val ≤ (decToF64 500 0).val := by
    rw [e1, e2]; norm_num [F64.val]
  refine ⟨h1, h2, calculateChange_exact _ _ h1 h2, ?_⟩
  rw [calculateChange_exact _ _ h1 h2, e1, e2]
  norm_num [F64.val]

/-- Claim C9 counterexample: the storage layer does not enforce
"exactly one pricing field": `schema.sql` declares `price_multiplier`
NOT NULL and leaves `fixed_price` nullable but otherwise
unconstrained, so a row carrying both a multiplier and a fixed price
passes every schema constraint. -/
theorem seasonal_both_storable :
    ¬ ∀ row : SeasonalRowInput, seasonalRowOk row = true →
        (row.multiplier.isSome = true ∧ row.fixedPrice.isSome = false) ∨
        (row.multiplier.isSome = false ∧ row.fixedPrice.isSome = true) := by
  intro h
  have hok : seasonalRowOk bothRow = true := by
    simp [seasonalRowOk, bothRow]
  rcases h bothRow hok with ⟨-, h2⟩ | ⟨h1, -⟩
  · simp [bothRow] at h2
  · simp [bothRow] at h1

/-- Claim C9 as amended: every storable `seasonal_pricing` row has its
multiplier set — the schema rules out "neither" but permits "both" —
while the seasonal-pricing form of the management UI
(`handleSavePricing` in `Reports.tsx`) always submits exactly one of
the two pricing fields, chosen by the `pricing_type` radio button. -/
theorem seasonal_pricing_fields :
    (∀ row : SeasonalRowInput, seasonalRowOk row = true →
      row.multiplier.isSome = true) ∧
    (∀ (kind : PricingKind) (mval fval : ℚ),
      ((savePricingPayload kind mval fval).priceMultiplier.isSome = true ↔
        ¬(savePricingPayload kind mval fval).fixedPrice.isSome = true)) := by
  constructor
  · intro row h
    simpa [seasonalRowOk] using (Bool.and_eq_true _ _).mp h |>.1
  · intro kind mval fval
    cases kind <;> simp [savePricingPayload]

/-- Claim C9 witness: the row carrying both fields is storable and has
its multiplier set; the form payload for the `fixed` radio choice sets
exactly the fixed price. -/
theorem seasonal_pricing_fields_witness :
    bothRow.multiplier.isSome = true ∧
    ((savePricingPayload PricingKind.fixed (3 / 2) 250).priceMultiplier.isSome = true ↔
      ¬(savePricingPayload PricingKind.fixed (3 / 2) 250).fixedPrice.isSome = true) :=
  ⟨seasonal_pricing_fields.1 bothRow (by simp [seasonalRowOk, bothRow]),
    seasonal_pricing_fields.2 PricingKind.fixed (3 / 2) 250⟩

/-- Claim C10: when the price-calculation API call fails, the React
reservation form silently falls back to `base_price x nights` (no
seasonal rules) and the legacy page falls back to the single-night
`base_price`; for the seasonal scenario stay (total frozen at
creation: 700) the form would preview 600 and the legacy page 200,
both different from the frozen total. -/
theorem fallback_price_divergence :
    (∀ (base : ℚ) (ci co : Nat),
      displayedPriceForm none base ci co = base * ((co - ci : Nat) : ℚ)) ∧
    (∀ base : ℚ, displayedPriceLegacy none base = base) ∧
    computePrice [rule15] 101 200 dMar01 dMar04 = Except.ok 700 ∧
    displayedPriceForm none 200 dMar01 dMar04 = 600 ∧
    displayedPriceLegacy none 200 = 200 ∧
    (600 : ℚ) ≠ 700 ∧ (200 : ℚ) ≠ 700 := by
  refine ⟨fun base ci co => rfl, fun base => rfl, rule15_stay_700,
    ?_, rfl, by norm_num, by norm_num⟩
  norm_num [displayedPriceForm, dMar01, dMar04]

/-!
Projection lemmas for the state-machine operations.
-/

/-- `setResStatus` leaves rooms unchanged. -/
@[simp] theorem setResStatus_rooms (s : HState) (rid : Nat)
    (st : RStatus) : (setResStatus s rid st).rooms = s.rooms := rfl

/-- `setResStatus` leaves payments unchanged. -/
@[simp] theorem setResStatus_payments (s : HState) (rid : Nat)
    (st : RStatus) : (setResStatus s rid st).payments = s.payments := rfl

/-- `setResStatus` leaves the id counter unchanged. -/
@[simp] theorem setResStatus_nextId (s : HState) (rid : Nat)
    (st : RStatus) : (setResStatus s rid st).nextId = s.nextId := rfl

/-- The reservations after `setResStatus` are the mapped originals. -/
@[simp] theorem setResStatus_reservations (s : HState) (rid : Nat)
    (st : RStatus) : (setResStatus s rid st).reservations =
      s.reservations.map (updStatus rid st) := rfl

/-- `setRoomHk` leaves reservations unchanged. -/
@[simp] theorem setRoomHk_reservations (s : HState) (roomId : Nat)
    (st : HkStatus) : (setRoomHk s roomId st).reservations =
      s.reservations := rfl

/-- `setRoomHk` leaves payments unchanged. -/
@[simp] theorem setRoomHk_payments (s : HState) (roomId : Nat)
    (st : HkStatus) : (setRoomHk s roomId st).payments = s.payments :=
  rfl

/-- `setRoomHk` leaves the id counter unchanged. -/
@[simp] theorem setRoomHk_nextId (s : HState) (roomId : Nat)
    (st : HkStatus) : (setRoomHk s roomId st).nextId = s.nextId := rfl

/-- A status update does not change the reservation id. -/
@[simp] theorem updStatus_id (rid : Nat) (st : RStatus)
    (r : Reservation) : (updStatus rid st r).id = r.id := by
  unfold updStatus; split <;> rfl

/-- A status update does not change the room reference. -/
@[simp] theorem updStatus_roomId (rid : Nat) (st : RStatus)
    (r : Reservation) : (updStatus rid st r).roomId = r.roomId := by
  unfold updStatus; split <;> rfl

/-- A status update does not change the check-in date. -/
@[simp] theorem updStatus_checkInDate (rid : Nat) (st : RStatus)
    (r : Reservation) :
    (updStatus rid st r).checkInDate = r.checkInDate := by
  unfold updStatus; split <;> rfl

/-- A status update does not change the check-out date. -/
@[simp] theorem updStatus_checkOutDate (rid : Nat) (st : RStatus)
    (r : Reservation) :
    (updStatus rid st r).checkOutDate = r.checkOutDate := by
  unfold updStatus; split <;> rfl

/-- A status update away from the targeted id is the identity. -/
theorem updStatus_not_target {rid : Nat} {st : RStatus}
    {r : Reservation} (h : r.id ≠ rid) : updStatus rid st r = r := by
  unfold updStatus; rw [if_neg h]

/-- A status update at the targeted id sets the status. -/
theorem updStatus_target {rid : Nat} {st : RStatus} {r : Reservation}
    (h : r.id = rid) :
    updStatus rid st r = { r with status := st } := by
  unfold updStatus; rw [if_pos h]

/-- A membership-aware monotonicity principle for `List.Pairwise`. -/
theorem pairwise_imp_mem {α : Type} {R S : α → α → Prop} :
    ∀ {l : List α}, (∀ a ∈ l, ∀ b ∈ l, R a b → S a b) →
      l.Pairwise R → l.Pairwise S
  | [], _, _ => List.Pairwise.nil
  | a :: l, h, hp => by
    rcases List.pairwise_cons.mp hp with ⟨h1, h2⟩
    refine List.pairwise_cons.mpr ⟨fun b hb =>
      h a (by simp) b (by simp [hb]) (h1 b hb), ?_⟩
    exact pairwise_imp_mem
      (fun x hx y hy => h x (by simp [hx]) y (by simp [hy])) h2

/-- With pairwise-distinct ids, any member carrying the looked-up id
is the reservation `find?` returned. -/
theorem find?_unique_mem {l : List Reservation} {rid : Nat}
    {r x : Reservation} (hu : l.Pairwise fun a b => a.id ≠ b.id)
    (hf : l.find? (fun y => y.id = rid) = some r) (hx : x ∈ l)
    (hid : x.id = rid) : x = r := by
  induction l with
  | nil => cases hx
  | cons a l ih =>
    rcases List.pairwise_cons.mp hu with ⟨ha, hu2⟩
    by_cases hda : a.id = rid
    · rw [List.find?_cons_of_pos _ (by simpa using hda)] at hf
      injection hf with hf
      subst hf
      rcases List.mem_cons.mp hx with h | h
      · exact h
      · exact absurd (hda.trans hid.symm) (ha x h)
    · rw [List.find?_cons_of_neg _ (by simpa using hda)] at hf
      rcases List.mem_cons.mp hx with h | h
      · subst h; exact absurd hid hda
      · exact ih hu2 hf h

/-- The reservation returned by `findRes` is a member and carries the
looked-up id. -/
theorem findRes_mem_id {s : HState} {rid : Nat} {r : Reservation}
    (hf : findRes s rid = some r) :
    r ∈ s.reservations ∧ r.id = rid := by
  refine ⟨List.mem_of_find?_eq_some hf, ?_⟩
  have := List.find?_some hf
  simpa using this

/-- The initial store satisfies the invariant. -/
theorem inv_init (rooms : List Room) : Inv (initState rooms) :=
  ⟨by simp [initState], by simp [initState], by simp [initState],
    by simp [initState], by simp [initState]⟩

/-- A successful create preserves the invariant: the new reservation
passed the atomic availability check, so it conflicts with no blocking
reservation already stored. -/
theorem create_inv {cfg : Config} {s s2 : HState}
    {rid roomId ci co n : Nat} (hs : Inv s)
    (h : createReservation cfg s roomId ci co n = Except.ok (s2, rid)) :
    Inv s2 := by
  unfold createReservation at h
  split at h
  · cases h
  split at h
  · cases h
  split at h
  · cases h
  split at h
  · cases h
  · cases h
  case _ rm hrm rt hrt hocc havail =>
  split at h
  · cases h
  case _ price hprice =>
  simp only [Except.ok.injEq, Prod.mk.injEq] at h
  obtain ⟨h1, -⟩ := h
  subst h1
  have hall : ∀ x ∈ s.reservations,
      (!(decide (x.roomId = roomId) && blocking x &&
        overlaps ci co x.checkInDate x.checkOutDate)) = true := by
    unfold isAvailable at havail
    by_cases hco : co ≤ ci
    · rw [if_pos hco] at havail; cases havail
    · rw [if_neg hco] at havail
      injection havail with havail
      exact List.all_eq_true.mp havail
  constructor
  · intro r hr
    rcases List.mem_cons.mp hr with h | h
    · subst h; simp
    · exact Nat.lt_succ_of_lt (hs.idsBelow r h)
  · intro p hp
    exact Nat.lt_succ_of_lt (hs.payBelow p hp)
  · refine List.pairwise_cons.mpr ⟨fun b hb => ?_, hs.uniq⟩
    have := hs.idsBelow b hb
    simp only []
    omega
  · refine List.pairwise_cons.mpr ⟨fun b hb => ?_, hs.noDouble⟩
    intro hb1 hb2 hroom
    have hthis := hall b hb
    have hbr : b.roomId = roomId := by
      simpa using hroom.symm
    simp only [hbr, hb2, Bool.and_true, Bool.true_and,
      Bool.not_eq_true', decide_eq_true_eq] at hthis
    simpa using hthis
  · intro p hp r hr hid
    rcases List.mem_cons.mp hr with h | h
    · subst h
      have := hs.payBelow p hp
      simp only [] at hid
      omega
    · exact hs.payOut p hp r h hid

/-- A successful check-in preserves the invariant: only the found
Confirmed reservation changes status, to the equally-blocking
CheckedIn, with dates and room untouched. -/
theorem checkin_inv {s s2 : HState} {rid today : Nat} (hs : Inv s)
    (h : checkInOp s rid today = Except.ok s2) : Inv s2 := by
  unfold checkInOp at h
  split at h
  · cases h
  case _ r hf =>
  split at h
  · cases h
  case _ hst =>
  split at h
  · cases h
  case _ htd =>
  rw [not_not] at hst
  injection h with h
  subst h
  obtain ⟨hrmem, hrid⟩ := findRes_mem_id hf
  have hconf : ∀ x ∈ s.reservations, x.id = rid →
      x.status = RStatus.Confirmed := by
    intro x hx hxid
    rw [find?_unique_mem hs.uniq hf hx hxid]
    exact hst
  constructor
  · intro r2 hr2
    simp only [setRoomHk_reservations, setResStatus_reservations,
      setRoomHk_nextId, setResStatus_nextId] at hr2 ⊢
    rcases List.mem_map.mp hr2 with ⟨x, hx, hfx⟩
    rw [← hfx, updStatus_id]
    exact hs.idsBelow x hx
  · intro p hp
    simp only [setRoomHk_payments, setResStatus_payments] at hp
    simp only [setRoomHk_nextId, setResStatus_nextId]
    exact hs.payBelow p hp
  · simp only [setRoomHk_reservations, setResStatus_reservations]
    rw [List.pairwise_map]
    exact hs.uniq.imp fun hab => by simpa using hab
  · simp only [setRoomHk_reservations, setResStatus_reservations]
    rw [List.pairwise_map]
    refine pairwise_imp_mem (fun a ha b hb hab => ?_) hs.noDouble
    intro hb1 hb2 hroom
    simp only [updStatus_roomId] at hroom
    simp only [updStatus_checkInDate, updStatus_checkOutDate]
    have hba : blocking a = true := by
      by_cases hida : a.id = rid
      · simp [blocking, hconf a ha hida]
      · rwa [updStatus_not_target hida] at hb1
    have hbb : blocking b = true := by
      by_cases hidb : b.id = rid
      · simp [blocking, hconf b hb hidb]
      · rwa [updStatus_not_target hidb] at hb2
    exact hab hba hbb hroom
  · intro p hp r2 hr2 hid
    simp only [setRoomHk_payments, setResStatus_payments] at hp
    simp only [setRoomHk_reservations, setResStatus_reservations] at hr2
    rcases List.mem_map.mp hr2 with ⟨x, hx, hfx⟩
    by_cases hidx : x.id = rid
    · exfalso
      have h1 := hs.payOut p hp x hx (by
        rw [← hfx, updStatus_id] at hid; exact hid)
      rw [find?_unique_mem hs.uniq hf hx hidx] at h1
      rw [hst] at h1
      cases h1
    · rw [← hfx, updStatus_not_target hidx]
      refine hs.payOut p hp x hx ?_
      rw [← hfx, updStatus_id] at hid
      exact hid

/-- A successful check-out preserves the invariant: the reservation
leaves the blocking statuses and the freshly recorded payment
references exactly the reservation just moved to CheckedOut. -/
theorem checkout_inv {s s2 : HState} {rid : Nat} {method : PayMethod}
    {amount : ℚ} (hs : Inv s)
    (h : checkOutOp s rid method amount = Except.ok s2) : Inv s2 := by
  unfold checkOutOp at h
  split at h
  · cases h
  case _ r hf =>
  split at h
  · cases h
  case _ hst =>
  split at h
  · cases h
  case _ hamt =>
  rw [not_not] at hst
  injection h with h
  subst h
  obtain ⟨hrmem, hrid⟩ := findRes_mem_id hf
  have hckd : ∀ x ∈ s.reservations, x.id = rid →
      x.status = RStatus.CheckedIn := by
    intro x hx hxid
    rw [find?_unique_mem hs.uniq hf hx hxid]
    exact hst
  constructor
  · intro r2 hr2
    simp only [setRoomHk_reservations, setResStatus_reservations,
      setRoomHk_nextId, setResStatus_nextId] at hr2 ⊢
    rcases List.mem_map.mp hr2 with ⟨x, hx, hfx⟩
    rw [← hfx, updStatus_id]
    exact hs.idsBelow x hx
  · intro p hp
    simp only [setRoomHk_payments, setResStatus_payments] at hp
    simp only [setRoomHk_nextId, setResStatus_nextId]
    rcases List.mem_cons.mp hp with h | h
    · subst h
      rw [← hrid]
      exact hs.idsBelow r hrmem
    · exact hs.payBelow p h
  · simp only [setRoomHk_reservations, setResStatus_reservations]
    rw [List.pairwise_map]
    exact hs.uniq.imp fun hab => by simpa using hab
  · simp only [setRoomHk_reservations, setResStatus_reservations]
    rw [List.pairwise_map]
    refine hs.noDouble.imp fun {a b} hab => ?_
    intro hb1 hb2 hroom
    simp only [updStatus_roomId] at hroom
    simp only [updStatus_checkInDate, updStatus_checkOutDate]
    have hba : blocking a = true := by
      by_cases hida : a.id = rid
      · rw [updStatus_target hida] at hb1
        simp [blocking] at hb1
      · rwa [updStatus_not_target hida] at hb1
    have hbb : blocking b = true := by
      by_cases hidb : b.id = rid
      · rw [updStatus_target hidb] at hb2
        simp [blocking] at hb2
      · rwa [updStatus_not_target hidb] at hb2
    exact hab hba hbb hroom
  · intro p hp r2 hr2 hid
    simp only [setRoomHk_payments, setResStatus_payments] at hp
    simp only [setRoomHk_reservations, setResStatus_reservations] at hr2
    rcases List.mem_map.mp hr2 with ⟨x, hx, hfx⟩
    rcases List.mem_cons.mp hp with hpn | hpo
    · subst hpn
      rw [← hfx, updStatus_id] at hid
      rw [← hfx, updStatus_target hid]
    · by_cases hidx : x.id = rid
      · exfalso
        have h1 := hs.payOut p hpo x hx (by
          rw [← hfx, updStatus_id] at hid; exact hid)
        rw [find?_unique_mem hs.uniq hf hx hidx, hst] at h1
        cases h1
      · rw [← hfx, updStatus_not_target hidx]
        refine hs.payOut p hpo x hx ?_
        rw [← hfx, updStatus_id] at hid
        exact hid

/-- A successful cancel preserves the invariant: the Confirmed
reservation leaves the blocking statuses and no payment can reference
it (payments only reference CheckedOut reservations). -/
theorem cancel_inv {s s2 : HState} {rid : Nat} (hs : Inv s)
    (h : cancelOp s rid = Except.ok s2) : Inv s2 := by
  unfold cancelOp at h
  split at h
  · cases h
  case _ r hf =>
  split at h
  · cases h
  case _ hst =>
  rw [not_not] at hst
  injection h with h
  subst h
  constructor
  · intro r2 hr2
    simp only [setResStatus_reservations, setResStatus_nextId] at hr2 ⊢
    rcases List.mem_map.mp hr2 with ⟨x, hx, hfx⟩
    rw [← hfx, updStatus_id]
    exact hs.idsBelow x hx
  · intro p hp
    simp only [setResStatus_payments] at hp
    simp only [setResStatus_nextId]
    exact hs.payBelow p hp
  · simp only [setResStatus_reservations]
    rw [List.pairwise_map]
    exact hs.uniq.imp fun hab => by simpa using hab
  · simp only [setResStatus_reservations]
    rw [List.pairwise_map]
    refine hs.noDouble.imp fun {a b} hab => ?_
    intro hb1 hb2 hroom
    simp only [updStatus_roomId] at hroom
    simp only [updStatus_checkInDate, updStatus_checkOutDate]
    have hba : blocking a = true := by
      by_cases hida : a.id = rid
      · rw [updStatus_target hida] at hb1
        simp [blocking] at hb1
      · rwa [updStatus_not_target hida] at hb1
    have hbb : blocking b = true := by
      by_cases hidb : b.id = rid
      · rw [updStatus_target hidb] at hb2
        simp [blocking] at hb2
      · rwa [updStatus_not_target hidb] at hb2
    exact hab hba hbb hroom
  · intro p hp r2 hr2 hid
    simp only [setResStatus_payments] at hp
    simp only [setResStatus_reservations] at hr2
    rcases List.mem_map.mp hr2 with ⟨x, hx, hfx⟩
    by_cases hidx : x.id = rid
    · exfalso
      have h1 := hs.payOut p hp x hx (by
        rw [← hfx, updStatus_id] at hid; exact hid)
      rw [find?_unique_mem hs.uniq hf hx hidx, hst] at h1
      cases h1
    · rw [← hfx, updStatus_not_target hidx]
      refine hs.payOut p hp x hx ?_
      rw [← hfx, updStatus_id] at hid
      exact hid

/-- Every reachable store satisfies the invariant. -/
theorem reachable_inv {cfg : Config} {rooms : List Room} {s : HState}
    (h : Reachable cfg rooms s) : Inv s := by
  induction h with
  | init => exact inv_init rooms
  | create _ hop ih => exact create_inv ih hop
  | checkin _ hop ih => exact checkin_inv ih hop
  | checkout _ hop ih => exact checkout_inv ih hop
  | cancel _ hop ih => exact cancel_inv ih hop

/-- Running a create request keeps the store reachable, whether or not
the request succeeds. -/
theorem reachable_execCreate {cfg : Config} {rooms : List Room}
    {s : HState} (h : Reachable cfg rooms s) (roomId ci co n : Nat) :
    Reachable cfg rooms (execCreate cfg s roomId ci co n) := by
  unfold execCreate
  split
  · next heq => exact Reachable.create h heq
  · exact h

/-- Running a check-in request keeps the store reachable. -/
theorem reachable_execCheckIn {cfg : Config} {rooms : List Room}
    {s : HState} (h : Reachable cfg rooms s) (rid today : Nat) :
    Reachable cfg rooms (execCheckIn s rid today) := by
  unfold execCheckIn
  split
  · next heq => exact Reachable.checkin h heq
  · exact h

/-- Running a check-out request keeps the store reachable. -/
theorem reachable_execCheckOut {cfg : Config} {rooms : List Room}
    {s : HState} (h : Reachable cfg rooms s) (rid : Nat)
    (method : PayMethod) (amount : ℚ) :
    Reachable cfg rooms (execCheckOut s rid method amount) := by
  unfold execCheckOut
  split
  · next heq => exact Reachable.checkout h heq
  · exact h

/-- Running a cancel request keeps the store reachable. -/
theorem reachable_execCancel {cfg : Config} {rooms : List Room}
    {s : HState} (h : Reachable cfg rooms s) (rid : Nat) :
    Reachable cfg rooms (execCancel s rid) := by
  unfold execCancel
  split
  · next heq => exact Reachable.cancel h heq
  · exact h

/-!
Evaluation of the concrete scenario chain.
-/

/-- Booking room 1 over 2026-03-01 to 2026-03-05 from the initial
store succeeds with frozen price 4 x 200 = 800 and id 0. -/
theorem create_stOne :
    createReservation cfg0 (initState rooms0) 1 dMar01 dMar05 2 =
      Except.ok (stOne, 0) := by
  norm_num [createReservation, initState, cfg0, rooms0, isAvailable,
    computePrice, nightRate, stOne, resMar01to05, dMar01, dMar05,
    List.range_succ, List.find?]

/-- The back-to-back booking over 2026-03-05 to 2026-03-06 also
succeeds (shared boundary day, no overlap), with price 200 and id 1. -/
theorem create_stTwo :
    createReservation cfg0 stOne 1 dMar05 dMar06 2 =
      Except.ok (stTwo, 1) := by
  norm_num [createReservation, stOne, cfg0, rooms0, isAvailable,
    computePrice, nightRate, stTwo, resMar01to05, resMar05to06,
    blocking, overlaps, dMar01, dMar05, dMar06, List.range_succ,
    List.find?]

/-- Checking reservation 0 in on its check-in date succeeds and
occupies the room. -/
theorem checkin_stThree : checkInOp stTwo 0 dMar01 = Except.ok stThree := by
  norm_num [checkInOp, findRes, stTwo, stThree, resMar01to05,
    resMar05to06, dMar01, dMar05, dMar06, List.find?, setResStatus,
    setRoomHk, updStatus, updHk, rooms0]

/-- Checking reservation 0 out against a cash payment of exactly the
800 total succeeds, records the payment and dirties the room. -/
theorem checkout_stFour :
    checkOutOp stThree 0 PayMethod.Cash 800 = Except.ok stFour := by
  norm_num [checkOutOp, findRes, stThree, stFour, resMar01to05,
    resMar05to06, dMar01, dMar05, dMar06, List.find?, setResStatus,
    setRoomHk, updStatus, updHk, rooms0]

/-- The two-booking store of spec scenario 3 is reachable. -/
theorem reachable_stTwo : Reachable cfg0 rooms0 stTwo :=
  Reachable.create (Reachable.create Reachable.init create_stOne)
    create_stTwo

/-- The checked-out store of spec scenario 5 is reachable. -/
theorem reachable_stFour : Reachable cfg0 rooms0 stFour :=
  Reachable.checkout
    (Reachable.checkin reachable_stTwo checkin_stThree) checkout_stFour

/-- Claim C1: in every store reachable under any sequence of
create / check-in / check-out / cancel operations (concurrent creates
serialize through the atomic check-then-insert of spec section 5), any
two distinct reservations for the same room whose statuses are in
Confirmed, CheckedIn have non-overlapping half-open
`[check_in_date, check_out_date)` intervals. -/
theorem no_double_booking {cfg : Config} {rooms : List Room}
    {s : HState} (h : Reachable cfg rooms s) :
    ∀ r1 ∈ s.reservations, ∀ r2 ∈ s.reservations, r1.id ≠ r2.id →
      blocking r1 = true → blocking r2 = true →
      r1.roomId = r2.roomId →
      overlaps r1.checkInDate r1.checkOutDate r2.checkInDate
        r2.checkOutDate = false := by
  intro r1 h1 r2 h2 hne hb1 hb2 hroom
  exact (reachable_inv h).noDouble.forall noConflict_symm h1 h2
    (fun hEq => hne (congrArg Reservation.id hEq)) hb1 hb2 hroom

/-- Claim C1 witness: in the reachable two-booking store of spec
scenario 3 the back-to-back reservations (2026-03-05 to 2026-03-06
after 2026-03-01 to 2026-03-05) do not overlap. -/
theorem no_double_booking_witness :
    overlaps resMar05to06.checkInDate resMar05to06.checkOutDate
      resMar01to05.checkInDate resMar01to05.checkOutDate = false :=
  no_double_booking reachable_stTwo resMar05to06 (by simp [stTwo])
    resMar01to05 (by simp [stTwo]) (by decide)
    (by decide) (by decide) (by decide)

/-- Claim C5: `reconcile` (the check-out operation) fails with a
StateError naming the current status whenever the reservation is not
CheckedIn; for a CheckedIn reservation with
`payment_amount < total_price` it fails with PaymentError and the
store — payments and reservation status included — is left exactly as
it was; and in every reachable store, every payment references a
reservation that is CheckedOut, so no payment exists for a
reservation that remains CheckedIn. -/
theorem reconcile_guards :
    (∀ (s : HState) (rid : Nat) (r : Reservation) (method : PayMethod)
      (amount : ℚ), findRes s rid = some r →
      r.status ≠ RStatus.CheckedIn →
      checkOutOp s rid method amount =
        Except.error (Err.state r.status RStatus.CheckedOut)) ∧
    (∀ (s : HState) (rid : Nat) (r : Reservation) (method : PayMethod)
      (amount : ℚ), findRes s rid = some r →
      r.status = RStatus.CheckedIn → amount < r.totalPrice →
      checkOutOp s rid method amount = Except.error Err.payment ∧
      execCheckOut s rid method amount = s) ∧
    (∀ (cfg : Config) (rooms : List Room) (s : HState),
      Reachable cfg rooms s → ∀ p ∈ s.payments, ∀ r ∈ s.reservations,
        r.id = p.resId →
        r.status = RStatus.CheckedOut ∧
        r.status ≠ RStatus.CheckedIn) := by
  refine ⟨?_, ?_, ?_⟩
  · intro s rid r method amount hf hst
    unfold checkOutOp
    simp only [hf, if_pos hst]
  · intro s rid r method amount hf hst hamt
    have herr : checkOutOp s rid method amount =
        Except.error Err.payment := by
      unfold checkOutOp
      simp only [hf, hst]
      rw [if_neg (by simp), if_pos hamt]
    refine ⟨herr, ?_⟩
    unfold execCheckOut
    rw [herr]
  · intro cfg rooms s h p hp r hr hid
    have hout := (reachable_inv h).payOut p hp r hr hid
    exact ⟨hout, by rw [hout]; intro hcon; cases hcon⟩

/-- Claim C5 witness: in the reachable checked-out store, the recorded
payment references the CheckedOut reservation 0; a repeated check-out
on it yields the StateError naming CheckedOut, and an underpayment
(500 against the 800 total) on the CheckedIn store fails with
PaymentError leaving the store untouched. -/
theorem reconcile_guards_witness :
    checkOutOp stFour 0 PayMethod.Cash 800 =
      Except.error (Err.state RStatus.CheckedOut RStatus.CheckedOut) ∧
    (checkOutOp stThree 0 PayMethod.Cash 500 =
      Except.error Err.payment ∧
      execCheckOut stThree 0 PayMethod.Cash 500 = stThree) ∧
    ({ resMar01to05 with status := RStatus.CheckedOut }.status =
      RStatus.CheckedOut ∧
      { resMar01to05 with status := RStatus.CheckedOut }.status ≠
        RStatus.CheckedIn) := by
  refine ⟨?_, ?_, ?_⟩
  · have := reconcile_guards.1 stFour 0
      { resMar01to05 with status := RStatus.CheckedOut }
      PayMethod.Cash 800 (by
        simp [findRes, stFour, List.find?, resMar01to05, resMar05to06])
      (by decide)
    simpa [resMar01to05] using this
  · exact reconcile_guards.2.1 stThree 0
      { resMar01to05 with status := RStatus.CheckedIn }
      PayMethod.Cash 500 (by
        simp [findRes, stThree, List.find?, resMar01to05, resMar05to06])
      (by decide) (by norm_num [resMar01to05])
  · exact reconcile_guards.2.2 cfg0 rooms0 stFour reachable_stFour
      { resId := 0, amount := 800, method := PayMethod.Cash }
      (by simp [stFour])
      { resMar01to05 with status := RStatus.CheckedOut }
      (by simp [stFour]) (by decide)

/-- Housekeeping updates keyed on a room id rewrite exactly the found
room in a find-by-id query. -/
theorem find?_map_updHk : ∀ (l : List Room) (roomId : Nat)
    (st : HkStatus),
    ((l.map (updHk roomId st)).find? fun x => x.roomId = roomId) =
      ((l.find? fun x => x.roomId = roomId).map
        fun rm => { rm with hkStatus := st })
  | [], _, _ => rfl
  | a :: l, roomId, st => by
    by_cases h : a.roomId = roomId
    · rw [List.map_cons,
        List.find?_cons_of_pos _ (by simp [updHk, h]),
        List.find?_cons_of_pos _ (by simpa using h)]
      simp [updHk, h]
    · rw [List.map_cons,
        List.find?_cons_of_neg _ (by simp [updHk, h]),
        List.find?_cons_of_neg _ (by simpa using h)]
      exact find?_map_updHk l roomId st

/-- After `setRoomHk` the targeted (and present) room reads back the
written housekeeping status. -/
theorem roomHk_setRoomHk (s : HState) (roomId : Nat) (st : HkStatus)
    (rm : Room) (h : (s.rooms.find? fun x => x.roomId = roomId) = some rm) :
    roomHk (setRoomHk s roomId st) roomId = some st := by
  unfold roomHk setRoomHk
  rw [find?_map_updHk, h]
  rfl

/-- Claim C7: check-in succeeds exactly when the reservation is
Confirmed and the injected clock is at or past the check-in date; on
success the reservation becomes CheckedIn and the room housekeeping
status reads Occupied. -/
theorem checkin_guard :
    ∀ (s : HState) (rid today : Nat) (r : Reservation) (rm : Room),
      findRes s rid = some r →
      (s.rooms.find? fun x => x.roomId = r.roomId) = some rm →
      (((∃ s2, checkInOp s rid today = Except.ok s2) ↔
        (r.status = RStatus.Confirmed ∧ r.checkInDate ≤ today)) ∧
      (r.status = RStatus.Confirmed → r.checkInDate ≤ today →
        checkInOp s rid today =
          Except.ok (setRoomHk (setResStatus s rid RStatus.CheckedIn)
            r.roomId HkStatus.Occupied) ∧
        roomHk (setRoomHk (setResStatus s rid RStatus.CheckedIn)
          r.roomId HkStatus.Occupied) r.roomId =
          some HkStatus.Occupied)) := by
  intro s rid today r rm hf hrm
  constructor
  · constructor
    · rintro ⟨s2, h2⟩
      unfold checkInOp at h2
      simp only [hf] at h2
      by_cases hst : r.status ≠ RStatus.Confirmed
      · rw [if_pos hst] at h2; cases h2
      · rw [if_neg hst] at h2
        rw [not_not] at hst
        by_cases htd : today < r.checkInDate
        · rw [if_pos htd] at h2; cases h2
        · exact ⟨hst, by omega⟩
    · rintro ⟨hst, htd⟩
      refine ⟨setRoomHk (setResStatus s rid RStatus.CheckedIn) r.roomId
        HkStatus.Occupied, ?_⟩
      unfold checkInOp
      simp only [hf]
      rw [if_neg (by simp [hst]), if_neg (by omega)]
  · intro hst htd
    constructor
    · unfold checkInOp
      simp only [hf]
      rw [if_neg (by simp [hst]), if_neg (by omega)]
    · exact roomHk_setRoomHk _ _ _ rm hrm

/-- Claim C7 witness: spec scenario 4 — the Confirmed reservation with
check-in date 2026-03-10 on the one-room store: at clock 2026-03-10
check-in succeeds and the room reads Occupied; at clock 2026-03-09 the
call is rejected. -/
theorem checkin_guard_witness :
    (((∃ s2, checkInOp stC7 0 dMar10 = Except.ok s2) ↔
      (resC7.status = RStatus.Confirmed ∧ resC7.checkInDate ≤ dMar10)) ∧
    (resC7.status = RStatus.Confirmed → resC7.checkInDate ≤ dMar10 →
      checkInOp stC7 0 dMar10 =
        Except.ok (setRoomHk (setResStatus stC7 0 RStatus.CheckedIn)
          resC7.roomId HkStatus.Occupied) ∧
      roomHk (setRoomHk (setResStatus stC7 0 RStatus.CheckedIn)
        resC7.roomId HkStatus.Occupied) resC7.roomId =
        some HkStatus.Occupied)) ∧
    checkInOp stC7 0 dMar09 = Except.error Err.validation := by
  refine ⟨checkin_guard stC7 0 dMar10 resC7
    { roomId := 1, roomTypeId := 101, hkStatus := HkStatus.Clean }
    (by simp [findRes, stC7, resC7, List.find?])
    (by simp [stC7, rooms0, resC7, List.find?]), ?_⟩
  unfold checkInOp
  rw [show findRes stC7 0 = some resC7 from by
    simp [findRes, stC7, resC7, List.find?]]
  simp only [resC7, dMar09, dMar10]
  norm_num

/-- Claim C8: once a reservation is CheckedOut or Cancelled, every
further transition attempt — check-in, check-out (including a repeat
of the check-out that produced the terminal status), cancel — returns
a StateError naming the current and the attempted status and leaves
the store byte-for-byte unchanged; in particular a second check-out
creates no new Payment. -/
theorem terminal_frozen :
    ∀ (s : HState) (rid : Nat) (r : Reservation),
      findRes s rid = some r →
      (r.status = RStatus.CheckedOut ∨ r.status = RStatus.Cancelled) →
      (∀ today : Nat, checkInOp s rid today =
          Except.error (Err.state r.status RStatus.CheckedIn) ∧
        execCheckIn s rid today = s) ∧
      (∀ (method : PayMethod) (amount : ℚ),
        checkOutOp s rid method amount =
          Except.error (Err.state r.status RStatus.CheckedOut) ∧
        execCheckOut s rid method amount = s) ∧
      (cancelOp s rid =
          Except.error (Err.state r.status RStatus.Cancelled) ∧
        execCancel s rid = s) := by
  intro s rid r hf hterm
  have hnc : r.status ≠ RStatus.Confirmed := by
    rcases hterm with h | h <;> rw [h] <;> intro hcon <;> cases hcon
  have hni : r.status ≠ RStatus.CheckedIn := by
    rcases hterm with h | h <;> rw [h] <;> intro hcon <;> cases hcon
  refine ⟨fun today => ?_, fun method amount => ?_, ?_⟩
  · have herr : checkInOp s rid today =
        Except.error (Err.state r.status RStatus.CheckedIn) := by
      unfold checkInOp
      simp only [hf, if_pos hnc]
    exact ⟨herr, by unfold execCheckIn; rw [herr]⟩
  · have herr : checkOutOp s rid method amount =
        Except.error (Err.state r.status RStatus.CheckedOut) := by
      unfold checkOutOp
      simp only [hf, if_pos hni]
    exact ⟨herr, by unfold execCheckOut; rw [herr]⟩
  · have herr : cancelOp s rid =
        Except.error (Err.state r.status RStatus.Cancelled) := by
      unfold cancelOp
      simp only [hf, if_pos hnc]
    exact ⟨herr, by unfold execCancel; rw [herr]⟩

/-- Claim C8 witness: on the reachable store whose reservation 0 is
CheckedOut, a repeated check-out, a check-in and a cancel each return
the StateError naming CheckedOut and the attempted status, and each
leaves the store (payments included) unchanged. -/
theorem terminal_frozen_witness :
    (checkInOp stFour 0 dMar10 =
        Except.error (Err.state RStatus.CheckedOut RStatus.CheckedIn) ∧
      execCheckIn stFour 0 dMar10 = stFour) ∧
    (checkOutOp stFour 0 PayMethod.Cash 800 =
        Except.error (Err.state RStatus.CheckedOut RStatus.CheckedOut) ∧
      execCheckOut stFour 0 PayMethod.Cash 800 = stFour) ∧
    (cancelOp stFour 0 =
        Except.error (Err.state RStatus.CheckedOut RStatus.Cancelled) ∧
      execCancel stFour 0 = stFour) := by
  have h := terminal_frozen stFour 0
    { resMar01to05 with status := RStatus.CheckedOut }
    (by simp [findRes, stFour, List.find?, resMar01to05, resMar05to06])
    (Or.inl rfl)
  exact ⟨h.1 dMar10, h.2.1 PayMethod.Cash 800, h.2.2⟩

end HRMS
